import Mathlib

/-!
Shallow embedding of the alert reconciler of `webserver.go` (function `SubmitAlert`,
lines 54-167) together with the data model it operates on.

Modelling conventions:
* Go results `(value, err)` become pairs `value × Option String` (`none` = nil error,
  `some msg` = `err.Error() = msg`).
* The Cachet client (its implementation lives outside this repository's core source;
  the spec gives only its interface) is a `CachetClient` oracle: a record of the
  results each backend call returns during one invocation.
* Every backend call the reconciler performs is recorded, in order, in a trace of
  `CachetCall` values; the invocation's outcome is `Option String × List CachetCall`
  (`none` = HTTP 200 "OK", `some e` = HTTP 400 with error message `e`).
* Go map indexing (`alert.Labels[key]` yielding `""` for an absent key,
  `list[v], ok` yielding an option, `alreadyFired[id] == 0` membership) is modelled
  with association lists.
* The bearer-token check and JSON binding (lines 56-69) are the excluded boundary
  layer; the embedding starts from the decoded payload. `config.LogLevel` only
  gates `log.Println` diagnostics and never affects control flow or responses, so
  it is omitted from the embedded configuration.
-/

namespace PrometheusCachet

/-- Cachet incident as the reconciler sees it: `Id`, `Status`, and the two
timestamp strings returned by `ReadIncident`. -/
structure Incident where
  id : Int
  status : Int
  createdAt : String
  updatedAt : String
deriving DecidableEq, Repr

/-- Go struct `PrometheusAlertDetail` (webserver.go lines 34-39). -/
structure PrometheusAlertDetail where
  labels : List (String × String)
  annotations : List (String × String)
  startAt : String
  endsAt : String
deriving DecidableEq, Repr

/-- Go struct `PrometheusAlert` (webserver.go lines 41-51). -/
structure PrometheusAlert where
  version : String
  groupKey : String
  status : String
  receiver : String
  groupLabels : List (String × String)
  commonLabels : List (String × String)
  commonAnnotations : List (String × String)
  externalURL : String
  alerts : List PrometheusAlertDetail
deriving DecidableEq, Repr

/-- Oracle for the Cachet backend client during one invocation: the result each
call returns.  Within one invocation the reconciler performs each query at most
once per argument tuple, so a stateless oracle is faithful. -/
structure CachetClient where
  listComponents : List (String × Int) × Option String
  searchIncidents : Int → List Incident × Option String
  createIncident : String → Int → Int → Int → Option String
  updateIncident : String → Int → Int → Int → String → Option String
  readIncident : Int → Incident × Option String

/-- The configuration fields of `PrometheusCachetConfig` that the reconciliation
logic reads: the label key used to resolve components and the squash flag. -/
structure PrometheusCachetConfig where
  labelName : String
  squashIncident : Bool
deriving DecidableEq, Repr

/-- One backend call, recorded with its arguments. -/
inductive CachetCall where
  | listComponents
  | searchIncidents (componentID : Int)
  | createIncident (name : String) (componentID status componentStatus : Int)
  | updateIncident (name : String) (componentID incidentID status : Int) (message : String)
  | readIncident (incidentID : Int)
deriving DecidableEq, Repr

/-- Go map indexing `m[k]` on a `map[string]string`: the zero value `""` for an
absent key. -/
def lookupString (m : List (String × String)) (k : String) : String :=
  match m.lookup k with
  | some v => v
  | none => ""

/-- Lines 71-76: `status := 1; if alerts.Status == "firing" { status = 4 }`.
The same derivation is used for `componentStatus`. -/
def deriveStatus (s : String) : Int :=
  if s = "firing" then 4 else 1

/-- Line 118: `fmt.Sprintf("Prometheus flagged service %s as up", ...)`. -/
def upMessage (name : String) : String :=
  "Prometheus flagged service " ++ name ++ " as up"

/-- Line 129: the enrichment message carrying the downtime in whole minutes. -/
def upDurationMessage (name : String) (minutes : Int) : String :=
  "Prometheus flagged service " ++ name ++ " as up (service was down for "
    ++ toString minutes ++ " minutes)"

/-- Line 137: `fmt.Sprintf("No incident found for component %d\n", componentID)`. -/
def noIncidentMessage (componentID : Int) : String :=
  "No incident found for component " ++ toString componentID ++ "\n"

/-- Decimal value of a digit character. -/
def digitVal (c : Char) : Nat := c.toNat - '0'.toNat

/-- Gregorian leap-year rule. -/
def isLeapYear (y : Nat) : Bool :=
  (y % 4 == 0 && y % 100 != 0) || y % 400 == 0

/-- Length of month `m` of year `y`. -/
def daysInMonth (y m : Nat) : Nat :=
  if m = 2 then (if isLeapYear y then 29 else 28)
  else if m = 4 ∨ m = 6 ∨ m = 9 ∨ m = 11 then 30
  else 31

/-- Days in year `y` strictly before month `m`. -/
def daysBeforeMonth (y m : Nat) : Nat :=
  ((List.range (m - 1)).map (fun i => daysInMonth y (i + 1))).sum

/-- Number of leap years strictly before year `y` (year 0 counts as leap). -/
def leapYearsBefore (y : Nat) : Nat :=
  if y = 0 then 0 else (y - 1) / 4 - (y - 1) / 100 + (y - 1) / 400 + 1

/-- Seconds since 0000-01-01 00:00:00 of a proleptic-Gregorian civil time. -/
def civilSeconds (y mo d h mi s : Nat) : Nat :=
  86400 * (365 * y + leapYearsBefore y + daysBeforeMonth y mo + (d - 1))
    + 3600 * h + 60 * mi + s

/-- Modelled from the spec: Go `time.Parse` with the fixed layout
`"2006-01-02 15:04:05"` (lines 124-126; the Go standard library is outside
`src/`).  Returns the parsed instant as seconds since a fixed epoch when the
string matches `YYYY-MM-DD HH:MM:SS` with in-range fields, `none` otherwise. -/
def parseTimestamp (str : String) : Option Nat :=
  match str.toList with
  | [y1, y2, y3, y4, c1, m1, m2, c2, d1, d2, c3, h1, h2, c4, n1, n2, c5, s1, s2] =>
    if (y1.isDigit && y2.isDigit && y3.isDigit && y4.isDigit &&
        m1.isDigit && m2.isDigit && d1.isDigit && d2.isDigit &&
        h1.isDigit && h2.isDigit && n1.isDigit && n2.isDigit &&
        s1.isDigit && s2.isDigit &&
        c1 == '-' && c2 == '-' && c3 == ' ' && c4 == ':' && c5 == ':') then
      let y := 1000 * digitVal y1 + 100 * digitVal y2 + 10 * digitVal y3 + digitVal y4
      let mo := 10 * digitVal m1 + digitVal m2
      let d := 10 * digitVal d1 + digitVal d2
      let h := 10 * digitVal h1 + digitVal h2
      let mi := 10 * digitVal n1 + digitVal n2
      let s := 10 * digitVal s1 + digitVal s2
      if 1 ≤ mo ∧ mo ≤ 12 ∧ 1 ≤ d ∧ d ≤ daysInMonth y mo ∧ h ≤ 23 ∧ mi ≤ 59 ∧ s ≤ 59 then
        some (civilSeconds y mo d h mi s)
      else none
    else none
  | _ => none

/-- Line 129: `int(updatedAt.Sub(createdAt).Minutes())` — the difference in
whole minutes, truncated toward zero (`Int.div` is T-division). -/
def downMinutes (createdAt updatedAt : Nat) : Int :=
  Int.tdiv ((updatedAt : Int) - (createdAt : Int)) 60

/-- Lines 95-153: the per-component body of the loop, run for each first-seen
component, given the resolved `name` (`alert.Labels[config.LabelName]`) and
`componentID`.  Returns the error that terminates the invocation (if any) and
the backend calls made, in order. -/
def processComponent (config : PrometheusCachetConfig) (cachet : CachetClient)
    (status componentStatus : Int) (name : String) (componentID : Int) :
    Option String × List CachetCall :=
  if config.squashIncident then
    if status ≠ 1 then
      -- lines 97-112: firing
      match cachet.searchIncidents componentID with
      | (_, some e) => (some e, [CachetCall.searchIncidents componentID])
      | (incidents, none) =>
        -- line 104: `len(incidents) == 0 || incidents[0].Status == 4`
        match incidents with
        | [] =>
          (cachet.createIncident name componentID status componentStatus,
           [CachetCall.searchIncidents componentID,
            CachetCall.createIncident name componentID status componentStatus])
        | i0 :: _ =>
          if i0.status = 4 then
            (cachet.createIncident name componentID status componentStatus,
             [CachetCall.searchIncidents componentID,
              CachetCall.createIncident name componentID status componentStatus])
          else
            (none, [CachetCall.searchIncidents componentID])
    else
      -- lines 113-143: resolved
      let sres := cachet.searchIncidents componentID
      if sres.2 = none then
        match sres.1 with
        | i0 :: _ =>
          -- line 117 re-tests `err == nil` on the same (nil) search error
          if sres.2 = none then
            let _u1 := cachet.updateIncident name componentID i0.id status (upMessage name)
            let rres := cachet.readIncident i0.id
            match rres.2 with
            | none =>
              match parseTimestamp rres.1.createdAt, parseTimestamp rres.1.updatedAt with
              | some tc, some tu =>
                let _u2 := cachet.updateIncident name componentID i0.id status
                             (upDurationMessage name (downMinutes tc tu))
                (none,
                 [CachetCall.searchIncidents componentID,
                  CachetCall.updateIncident name componentID i0.id status (upMessage name),
                  CachetCall.readIncident i0.id,
                  CachetCall.updateIncident name componentID i0.id status
                    (upDurationMessage name (downMinutes tc tu))])
              | _, _ =>
                (none,
                 [CachetCall.searchIncidents componentID,
                  CachetCall.updateIncident name componentID i0.id status (upMessage name),
                  CachetCall.readIncident i0.id])
            | some _ =>
              (none,
               [CachetCall.searchIncidents componentID,
                CachetCall.updateIncident name componentID i0.id status (upMessage name),
                CachetCall.readIncident i0.id])
          else
            -- lines 132-135 (dead in Go: `err` was just tested nil)
            (sres.2, [CachetCall.searchIncidents componentID])
        | [] =>
          (some (noIncidentMessage componentID), [CachetCall.searchIncidents componentID])
      else
        (sres.2, [CachetCall.searchIncidents componentID])
  else
    -- lines 145-153: no squash, unconditional create
    (cachet.createIncident name componentID status componentStatus,
     [CachetCall.createIncident name componentID status componentStatus])

/-- Lines 88-156: the loop over `alerts.Alerts` with the `alreadyFired`
deduplication map (modelled as the list of component IDs already processed). -/
def processAlerts (config : PrometheusCachetConfig) (cachet : CachetClient)
    (status componentStatus : Int) (list : List (String × Int)) :
    List PrometheusAlertDetail → List Int → Option String × List CachetCall
  | [], _ => (none, [])
  | alert :: rest, alreadyFired =>
    match list.lookup (lookupString alert.labels config.labelName) with
    | none => processAlerts config cachet status componentStatus list rest alreadyFired
    | some componentID =>
      if componentID ∈ alreadyFired then
        processAlerts config cachet status componentStatus list rest alreadyFired
      else
        let r := processComponent config cachet status componentStatus
                   (lookupString alert.labels config.labelName) componentID
        match r.1 with
        | some e => (some e, r.2)
        | none =>
          let next := processAlerts config cachet status componentStatus list rest
                        (componentID :: alreadyFired)
          (next.1, r.2 ++ next.2)

/-- Lines 70-167 of `SubmitAlert`, from the decoded payload on: derive the
status, fetch the component directory, run the loop.  Result: terminating
error (`none` = 200 OK) and the ordered backend-call trace. -/
def SubmitAlert (config : PrometheusCachetConfig) (cachet : CachetClient)
    (alerts : PrometheusAlert) : Option String × List CachetCall :=
  let status := deriveStatus alerts.status
  let componentStatus := deriveStatus alerts.status
  match cachet.listComponents with
  | (_, some e) => (some e, [CachetCall.listComponents])
  | (list, none) =>
    let r := processAlerts config cachet status componentStatus list alerts.alerts []
    (r.1, CachetCall.listComponents :: r.2)

/-- Number of `searchIncidents` calls for component `cid` in a trace. -/
def countSearchCalls : List CachetCall → Int → Nat
  | [], _ => 0
  | CachetCall.searchIncidents j :: t, cid =>
    (if j = cid then 1 else 0) + countSearchCalls t cid
  | _ :: t, cid => countSearchCalls t cid

/-- Number of `createIncident` calls for component `cid` in a trace. -/
def countCreateCalls : List CachetCall → Int → Nat
  | [], _ => 0
  | CachetCall.createIncident _ j _ _ :: t, cid =>
    (if j = cid then 1 else 0) + countCreateCalls t cid
  | _ :: t, cid => countCreateCalls t cid

/-! ## Concrete fixtures for evaluation -/

/-- Test client: directory `{"api" ↦ 42}`, every call succeeds, no incidents. -/
def baseClient : CachetClient where
  listComponents := ([("api", 42)], none)
  searchIncidents := fun _ => ([], none)
  createIncident := fun _ _ _ _ => none
  updateIncident := fun _ _ _ _ _ => none
  readIncident := fun _ => (⟨0, 0, "", ""⟩, none)

/-- Client whose incident search finds one open (status 4) incident, id 7. -/
def clientOpenIncident : CachetClient :=
  { baseClient with searchIncidents := fun _ => ([⟨7, 4, "", ""⟩], none) }

/-- Client whose incident search finds one closed (status 1) incident, id 7. -/
def clientClosedIncident : CachetClient :=
  { baseClient with searchIncidents := fun _ => ([⟨7, 1, "", ""⟩], none) }

/-- Client with one open incident whose re-read yields parseable timestamps
31.5 minutes apart. -/
def clientResolvedHappy : CachetClient :=
  { baseClient with
    searchIncidents := fun _ => ([⟨7, 4, "", ""⟩], none)
    readIncident := fun _ => (⟨7, 1, "2021-03-01 10:00:00", "2021-03-01 10:31:30"⟩, none) }

/-- Client with one open incident where every update call fails and the re-read
returns unparseable timestamps. -/
def clientUpdateFails : CachetClient :=
  { baseClient with
    searchIncidents := fun _ => ([⟨7, 4, "", ""⟩], none)
    updateIncident := fun _ _ _ _ _ => some "update failed"
    readIncident := fun _ => (⟨7, 1, "bad", "bad"⟩, none) }

/-- Client whose component-directory fetch fails. -/
def clientListFails : CachetClient :=
  { baseClient with listComponents := ([], some "list failed") }

/-- Client whose incident search fails. -/
def clientSearchFails : CachetClient :=
  { baseClient with searchIncidents := fun _ => ([], some "search failed") }

/-- Configuration: label key `service`, squash mode on. -/
def cfgSquash : PrometheusCachetConfig := ⟨"service", true⟩

/-- Configuration: label key `service`, squash mode off. -/
def cfgPlain : PrometheusCachetConfig := ⟨"service", false⟩

/-- One alert labelled `service: api`. -/
def apiAlert : PrometheusAlertDetail := ⟨[("service", "api")], [], "", ""⟩

/-- One alert labelled `service: db` (not in the test directory). -/
def dbAlert : PrometheusAlertDetail := ⟨[("service", "db")], [], "", ""⟩

/-- One alert with no labels at all. -/
def noLabelAlert : PrometheusAlertDetail := ⟨[], [], "", ""⟩

/-- A webhook payload with the given group status and alerts. -/
def groupOf (st : String) (details : List PrometheusAlertDetail) : PrometheusAlert :=
  ⟨"4", "", st, "", [], [], [], "", details⟩

/-! ## Claim theorems -/

/-- C1: evaluation of the code at the failing input.  With squash mode on and a
firing group, when the component's most recent incident is *open* (status 4)
the code line 104 (`len(incidents) == 0 || incidents[0].Status == 4`) still
issues a create-incident call, and when the most recent incident is *closed*
(status 1) it issues none — in both directions the opposite of the claim (and
of the code's own comment "if no open incident currently, let's create a new
one"). -/
theorem squash_firing_create_condition_inverted :
    processComponent cfgSquash clientOpenIncident 4 4 "api" 42 =
      (none, [CachetCall.searchIncidents 42, CachetCall.createIncident "api" 42 4 4])
    ∧ processComponent cfgSquash clientClosedIncident 4 4 "api" 42 =
      (none, [CachetCall.searchIncidents 42]) :=
  ⟨rfl, rfl⟩

/-- Every create-incident call recorded by `processComponent` carries exactly the
resolved name, the component ID and the two derived status arguments. -/
lemma processComponent_create_args {config : PrometheusCachetConfig} {cachet : CachetClient}
    {st cs : Int} {name : String} {cid : Int} {n : String} {k s c' : Int}
    (h : CachetCall.createIncident n k s c' ∈ (processComponent config cachet st cs name cid).2) :
    n = name ∧ k = cid ∧ s = st ∧ c' = cs := by
  unfold processComponent at h
  split at h
  · split at h
    · -- squash on, firing
      rcases hs : cachet.searchIncidents cid with ⟨incs, serr⟩
      rw [hs] at h
      rcases serr with _ | e
      · rcases incs with _ | ⟨i0, t⟩
        · simp_all
        · by_cases h4 : i0.status = 4 <;> simp_all
      · simp_all
    · -- squash on, resolved: no create call occurs in any branch
      rcases hs : cachet.searchIncidents cid with ⟨incs, serr⟩
      rw [hs] at h
      rcases serr with _ | e
      · rcases incs with _ | ⟨i0, t⟩
        · simp_all
        · simp at h
          split at h
          · split at h <;> simp_all
          · simp_all
      · simp_all
  · simp_all

/-- Every create-incident call recorded by the alert loop carries the two derived
status arguments. -/
lemma processAlerts_create_args {config : PrometheusCachetConfig} {cachet : CachetClient}
    {st cs : Int} {list : List (String × Int)} :
    ∀ (alerts : List PrometheusAlertDetail) (fired : List Int) {n : String} {k s c' : Int},
      CachetCall.createIncident n k s c' ∈
        (processAlerts config cachet st cs list alerts fired).2 →
      s = st ∧ c' = cs
  | [], _, _, _, _, _, h => by simp [processAlerts] at h
  | alert :: rest, fired, n, k, s, c', h => by
    rw [processAlerts] at h
    split at h
    · exact processAlerts_create_args rest fired h
    · rename_i cid hl
      split at h
      · exact processAlerts_create_args rest fired h
      · rcases hr : (processComponent config cachet st cs
            (lookupString alert.labels config.labelName) cid).1 with _ | e
        · simp only [hr] at h
          rcases List.mem_append.mp h with hm | hm
          · exact ⟨(processComponent_create_args hm).2.2.1, (processComponent_create_args hm).2.2.2⟩
          · exact processAlerts_create_args rest (cid :: fired) hm
        · simp only [hr] at h
          exact ⟨(processComponent_create_args h).2.2.1, (processComponent_create_args h).2.2.2⟩

/-- C3, counterexample: the claim says any group status other than `"resolved"`
derives status code 4, but the code (lines 71-76) derives 4 only for `"firing"`
and 1 for everything else: with group status `"banana"` the derived code is 1,
and the create call receives 1, not 4. -/
theorem derived_status_nonfiring_cex :
    deriveStatus "banana" = 1
    ∧ SubmitAlert cfgPlain baseClient (groupOf "banana" [apiAlert]) =
        (none, [CachetCall.listComponents, CachetCall.createIncident "api" 42 1 1]) :=
  ⟨rfl, rfl⟩

/-- C3 (amended): the derived status code is 4 exactly when the group status is
`"firing"` and 1 for every other value, and every create-incident call of the
invocation passes that same code as both the incident status and the component
status. -/
theorem derived_status_both_arguments (config : PrometheusCachetConfig)
    (cachet : CachetClient) (g : PrometheusAlert) :
    (deriveStatus g.status = 4 ↔ g.status = "firing")
    ∧ (deriveStatus g.status = 1 ↔ g.status ≠ "firing")
    ∧ (∀ (n : String) (k s c' : Int),
        CachetCall.createIncident n k s c' ∈ (SubmitAlert config cachet g).2 →
        s = deriveStatus g.status ∧ c' = deriveStatus g.status) := by
  refine ⟨?_, ?_, ?_⟩
  · unfold deriveStatus; split <;> simp_all
  · unfold deriveStatus; split <;> simp_all
  · intro n k s c' h
    unfold SubmitAlert at h
    rcases hl : cachet.listComponents with ⟨list, _ | e⟩
    · rw [hl] at h
      simp only [List.mem_cons] at h
      rcases h with h | h
      · exact absurd h (by simp)
      · exact processAlerts_create_args g.alerts [] h
    · rw [hl] at h
      simp at h

/-- C3 witness: a concrete firing invocation where the create call carries the
derived code 4 in both status positions. -/
theorem derived_status_both_arguments_witness :
    CachetCall.createIncident "api" 42 4 4 ∈
      (SubmitAlert cfgPlain baseClient (groupOf "firing" [apiAlert])).2
    ∧ ((4 : Int) = deriveStatus (groupOf "firing" [apiAlert]).status
       ∧ (4 : Int) = deriveStatus (groupOf "firing" [apiAlert]).status) :=
  ⟨by decide,
   (derived_status_both_arguments cfgPlain baseClient (groupOf "firing" [apiAlert])).2.2
     "api" 42 4 4 (by decide)⟩

/-- C4: with squash on and a resolved group, a first-seen component whose
incident search succeeds with an empty result makes the invocation fail with a
message containing the component identifier, after the search call only (no
mutation), and the remaining alerts of the batch are not processed. -/
theorem resolved_without_incident_errors (config : PrometheusCachetConfig)
    (cachet : CachetClient) (cs : Int) (name : String) (cid : Int)
    (hsq : config.squashIncident = true)
    (hs : cachet.searchIncidents cid = ([], none)) :
    processComponent config cachet 1 cs name cid =
      (some (noIncidentMessage cid), [CachetCall.searchIncidents cid])
    ∧ (∃ pre post, noIncidentMessage cid = pre ++ toString cid ++ post)
    ∧ (∀ (list : List (String × Int)) (a : PrometheusAlertDetail)
         (rest : List PrometheusAlertDetail) (fired : List Int),
        list.lookup (lookupString a.labels config.labelName) = some cid →
        lookupString a.labels config.labelName = name →
        cid ∉ fired →
        processAlerts config cachet 1 cs list (a :: rest) fired =
          (some (noIncidentMessage cid), [CachetCall.searchIncidents cid])) := by
  have hpc : processComponent config cachet 1 cs name cid =
      (some (noIncidentMessage cid), [CachetCall.searchIncidents cid]) := by
    simp [processComponent, hsq, hs]
  refine ⟨hpc, ⟨"No incident found for component ", "\n", rfl⟩, ?_⟩
  intro list a rest fired hl hn hf
  rw [processAlerts]
  simp only [hl]
  rw [if_neg hf, hn]
  simp [hpc]

/-- C4 witness: concrete resolved invocation against a backend with no
incidents for component 42. -/
theorem resolved_without_incident_errors_witness :
    processComponent cfgSquash baseClient 1 1 "api" 42 =
      (some (noIncidentMessage 42), [CachetCall.searchIncidents 42])
    ∧ processAlerts cfgSquash baseClient 1 1 [("api", 42)] [apiAlert, dbAlert] [] =
      (some (noIncidentMessage 42), [CachetCall.searchIncidents 42]) :=
  ⟨(resolved_without_incident_errors cfgSquash baseClient 1 "api" 42 rfl rfl).1,
   (resolved_without_incident_errors cfgSquash baseClient 1 "api" 42 rfl rfl).2.2
     [("api", 42)] apiAlert [dbAlert] [] rfl rfl (by decide)⟩

/-- C7: an alert whose label value is absent from the component directory is
skipped silently — the loop step for it equals the loop on the remaining
alerts, so it contributes no backend call and no error. -/
theorem unmapped_label_alert_skipped (config : PrometheusCachetConfig)
    (cachet : CachetClient) (st cs : Int) (list : List (String × Int))
    (a : PrometheusAlertDetail) (rest : List PrometheusAlertDetail) (fired : List Int)
    (h : list.lookup (lookupString a.labels config.labelName) = none) :
    processAlerts config cachet st cs list (a :: rest) fired =
      processAlerts config cachet st cs list rest fired := by
  rw [processAlerts, h]

/-- C7 witness: the alert labelled `service: db` is absent from the directory
`{"api" ↦ 42}` and is skipped. -/
theorem unmapped_label_alert_skipped_witness :
    processAlerts cfgSquash baseClient 4 4 [("api", 42)] [dbAlert] [] =
      processAlerts cfgSquash baseClient 4 4 [("api", 42)] [] [] :=
  unmapped_label_alert_skipped cfgSquash baseClient 4 4 [("api", 42)] dbAlert [] [] rfl

/-- C8: with squash off, a first-seen component is handled by exactly one
unconditional create-incident call — no incident search — and the call's error,
if any, is the outcome. -/
theorem nosquash_unconditional_create (config : PrometheusCachetConfig)
    (cachet : CachetClient) (st cs : Int) (name : String) (cid : Int)
    (h : config.squashIncident = false) :
    processComponent config cachet st cs name cid =
      (cachet.createIncident name cid st cs,
       [CachetCall.createIncident name cid st cs]) := by
  simp [processComponent, h]

/-- C8 witness: concrete no-squash invocation producing exactly the one create
call. -/
theorem nosquash_unconditional_create_witness :
    cfgPlain.squashIncident = false
    ∧ processComponent cfgPlain baseClient 4 4 "api" 42 =
        (none, [CachetCall.createIncident "api" 42 4 4]) :=
  ⟨rfl, by rw [nosquash_unconditional_create cfgPlain baseClient 4 4 "api" 42 rfl]; rfl⟩


/-- C9: in the squash-enabled resolved branch, whenever the incident search
succeeds with a non-empty result the first update-incident call is always
issued (the inner error-response re-testing the already-nil search error is
unreachable), and the invocation's outcome for this component is success. -/
theorem resolved_first_update_always_issued (config : PrometheusCachetConfig)
    (cachet : CachetClient) (cs : Int) (name : String) (cid : Int)
    (i0 : Incident) (t : List Incident)
    (hsq : config.squashIncident = true)
    (hs : cachet.searchIncidents cid = (i0 :: t, none)) :
    ∃ tail, processComponent config cachet 1 cs name cid =
      (none, CachetCall.searchIncidents cid ::
             CachetCall.updateIncident name cid i0.id 1 (upMessage name) :: tail) := by
  simp only [processComponent, hsq, hs, if_true]
  rcases hr : (cachet.readIncident i0.id).2 with _ | e
  · rcases hc : parseTimestamp (cachet.readIncident i0.id).1.createdAt with _ | tc
    · simp [hr, hc]
    · rcases hu : parseTimestamp (cachet.readIncident i0.id).1.updatedAt with _ | tu
      · simp [hr, hc, hu]
      · simp [hr, hc, hu]
  · simp [hr]

/-- C9 witness: concrete resolved invocation with one open incident — the first
update call is issued. -/
theorem resolved_first_update_always_issued_witness :
    ∃ tail, processComponent cfgSquash clientResolvedHappy 1 1 "api" 42 =
      (none, CachetCall.searchIncidents 42 ::
             CachetCall.updateIncident "api" 42 7 1 (upMessage "api") :: tail) :=
  resolved_first_update_always_issued cfgSquash clientResolvedHappy 1 "api" 42
    ⟨7, 4, "", ""⟩ [] rfl rfl

/-- C10: an alert whose labels map lacks the configured key resolves through the
empty string (Go's zero value for a missing map key): it is skipped when the
directory has no entry for `""`, and otherwise processed with `""` as the
incident name. -/
theorem missing_label_resolves_empty_string (config : PrometheusCachetConfig)
    (cachet : CachetClient) (st cs : Int) (list : List (String × Int))
    (a : PrometheusAlertDetail) (rest : List PrometheusAlertDetail) (fired : List Int)
    (h : a.labels.lookup config.labelName = none) :
    lookupString a.labels config.labelName = ""
    ∧ (list.lookup "" = none →
        processAlerts config cachet st cs list (a :: rest) fired =
          processAlerts config cachet st cs list rest fired)
    ∧ (∀ cid : Int, list.lookup "" = some cid → cid ∉ fired →
        (∀ e, (processComponent config cachet st cs "" cid).1 = some e →
          processAlerts config cachet st cs list (a :: rest) fired =
            (some e, (processComponent config cachet st cs "" cid).2))
        ∧ ((processComponent config cachet st cs "" cid).1 = none →
          processAlerts config cachet st cs list (a :: rest) fired =
            ((processAlerts config cachet st cs list rest (cid :: fired)).1,
             (processComponent config cachet st cs "" cid).2 ++
               (processAlerts config cachet st cs list rest (cid :: fired)).2))) := by
  have hls : lookupString a.labels config.labelName = "" := by
    simp [lookupString, h]
  refine ⟨hls, ?_, ?_⟩
  · intro hd
    rw [processAlerts, hls, hd]
  · intro cid hd hf
    constructor
    · intro e he
      rw [processAlerts, hls]
      simp only [hd]
      rw [if_neg hf]
      simp [he]
    · intro he
      rw [processAlerts, hls]
      simp only [hd]
      rw [if_neg hf]
      simp [he]

/-- C10 witness: an alert with no labels, a directory mapping `""` to 42: the
alert is processed and the create call uses `""` as the incident name. -/
theorem missing_label_resolves_empty_string_witness :
    lookupString noLabelAlert.labels cfgPlain.labelName = ""
    ∧ processAlerts cfgPlain baseClient 4 4 [("", 42)] [noLabelAlert] [] =
        (none, [CachetCall.createIncident "" 42 4 4]) := by
  refine ⟨(missing_label_resolves_empty_string cfgPlain baseClient 4 4 [("", 42)]
      noLabelAlert [] [] rfl).1, ?_⟩
  rw [((missing_label_resolves_empty_string cfgPlain baseClient 4 4 [("", 42)]
      noLabelAlert [] [] rfl).2.2 42 rfl (by decide)).2 rfl]
  rfl

/-- C5: after the first update of the most recent incident the reconciler
re-reads it; exactly one enrichment update — whose message carries the downtime
in whole minutes, `updatedAt − createdAt` — is issued precisely when the
re-read succeeds and both timestamps parse under the fixed layout; otherwise
no second update is issued, and in every case no error is reported. -/
theorem resolved_enrichment_update (config : PrometheusCachetConfig)
    (cachet : CachetClient) (cs : Int) (name : String) (cid : Int)
    (i0 : Incident) (t : List Incident)
    (hsq : config.squashIncident = true)
    (hs : cachet.searchIncidents cid = (i0 :: t, none)) :
    (processComponent config cachet 1 cs name cid).1 = none
    ∧ (∀ inc, cachet.readIncident i0.id = (inc, none) →
        (∀ tc tu, parseTimestamp inc.createdAt = some tc →
            parseTimestamp inc.updatedAt = some tu →
            (processComponent config cachet 1 cs name cid).2 =
              [CachetCall.searchIncidents cid,
               CachetCall.updateIncident name cid i0.id 1 (upMessage name),
               CachetCall.readIncident i0.id,
               CachetCall.updateIncident name cid i0.id 1
                 (upDurationMessage name (downMinutes tc tu))])
        ∧ ((parseTimestamp inc.createdAt = none ∨ parseTimestamp inc.updatedAt = none) →
            (processComponent config cachet 1 cs name cid).2 =
              [CachetCall.searchIncidents cid,
               CachetCall.updateIncident name cid i0.id 1 (upMessage name),
               CachetCall.readIncident i0.id]))
    ∧ (∀ inc e, cachet.readIncident i0.id = (inc, some e) →
        (processComponent config cachet 1 cs name cid).2 =
          [CachetCall.searchIncidents cid,
           CachetCall.updateIncident name cid i0.id 1 (upMessage name),
           CachetCall.readIncident i0.id]) := by
  refine ⟨?_, ?_, ?_⟩
  · rcases hri : cachet.readIncident i0.id with ⟨inc, _ | e⟩
    · rcases hc : parseTimestamp inc.createdAt with _ | tc
      · simp [processComponent, hsq, hs, hri, hc]
      · rcases hu : parseTimestamp inc.updatedAt with _ | tu
        · simp [processComponent, hsq, hs, hri, hc, hu]
        · simp [processComponent, hsq, hs, hri, hc, hu]
    · simp [processComponent, hsq, hs, hri]
  · intro inc hri
    constructor
    · intro tc tu hc hu
      simp [processComponent, hsq, hs, hri, hc, hu]
    · intro hcu
      rcases hcu with hc | hu
      · simp [processComponent, hsq, hs, hri, hc]
      · rcases hc2 : parseTimestamp inc.createdAt with _ | tc
        · simp [processComponent, hsq, hs, hri, hc2, hu]
        · simp [processComponent, hsq, hs, hri, hc2, hu]
  · intro inc e hri
    simp [processComponent, hsq, hs, hri]

/-- C5 witness: concrete resolved invocation whose re-read yields timestamps
31.5 minutes apart — the enrichment update reports 31 whole minutes. -/
theorem resolved_enrichment_update_witness :
    parseTimestamp "2021-03-01 10:00:00" = some 63781812000
    ∧ parseTimestamp "2021-03-01 10:31:30" = some 63781813890
    ∧ downMinutes 63781812000 63781813890 = 31
    ∧ (processComponent cfgSquash clientResolvedHappy 1 1 "api" 42).2 =
        [CachetCall.searchIncidents 42,
         CachetCall.updateIncident "api" 42 7 1 (upMessage "api"),
         CachetCall.readIncident 7,
         CachetCall.updateIncident "api" 42 7 1
           (upDurationMessage "api" (downMinutes 63781812000 63781813890))] := by
  refine ⟨rfl, rfl, by decide, ?_⟩
  exact ((resolved_enrichment_update cfgSquash clientResolvedHappy 1 "api" 42
      ⟨7, 4, "", ""⟩ [] rfl rfl).2.1
      ⟨7, 1, "2021-03-01 10:00:00", "2021-03-01 10:31:30"⟩ rfl).1
      63781812000 63781813890 rfl rfl

/-- The per-component step never reads the result of an update-incident call:
two clients agreeing on everything but `updateIncident` behave identically. -/
lemma processComponent_client_invariant (config : PrometheusCachetConfig)
    (c1 c2 : CachetClient)
    (hs : c1.searchIncidents = c2.searchIncidents)
    (hc : c1.createIncident = c2.createIncident)
    (hr : c1.readIncident = c2.readIncident)
    (st cs : Int) (name : String) (cid : Int) :
    processComponent config c1 st cs name cid =
      processComponent config c2 st cs name cid := by
  unfold processComponent
  rw [hs, hc, hr]

/-- The alert loop never reads the result of an update-incident call. -/
lemma processAlerts_client_invariant (config : PrometheusCachetConfig)
    (c1 c2 : CachetClient)
    (hs : c1.searchIncidents = c2.searchIncidents)
    (hc : c1.createIncident = c2.createIncident)
    (hr : c1.readIncident = c2.readIncident)
    (st cs : Int) (list : List (String × Int)) :
    ∀ (alerts : List PrometheusAlertDetail) (fired : List Int),
      processAlerts config c1 st cs list alerts fired =
        processAlerts config c2 st cs list alerts fired
  | [], _ => rfl
  | alert :: rest, fired => by
    rw [processAlerts, processAlerts]
    rcases hl : list.lookup (lookupString alert.labels config.labelName) with _ | cid
    · simp only [hl]
      exact processAlerts_client_invariant config c1 c2 hs hc hr st cs list rest fired
    · simp only [hl]
      by_cases hf : cid ∈ fired
      · rw [if_pos hf, if_pos hf]
        exact processAlerts_client_invariant config c1 c2 hs hc hr st cs list rest fired
      · rw [if_neg hf, if_neg hf]
        rw [processComponent_client_invariant config c1 c2 hs hc hr]
        rw [processAlerts_client_invariant config c1 c2 hs hc hr st cs list rest (cid :: fired)]

/-- The whole invocation never reads the result of an update-incident call. -/
lemma SubmitAlert_client_invariant (config : PrometheusCachetConfig)
    (c1 c2 : CachetClient)
    (hl : c1.listComponents = c2.listComponents)
    (hs : c1.searchIncidents = c2.searchIncidents)
    (hc : c1.createIncident = c2.createIncident)
    (hr : c1.readIncident = c2.readIncident)
    (g : PrometheusAlert) :
    SubmitAlert config c1 g = SubmitAlert config c2 g := by
  rw [SubmitAlert, SubmitAlert, hl]
  rcases hll : c2.listComponents with ⟨l, le⟩
  rcases le with _ | e
  · simp only [hll]
    rw [processAlerts_client_invariant config c1 c2 hs hc hr]
  · simp only [hll]

/-- C2, counterexample: the claim says an update-incident failure aborts and is
surfaced, but the code (lines 118, 129) discards both update results: with an
update oracle that always fails, the update call is made, the invocation still
returns success, and no error is surfaced. -/
theorem update_error_not_surfaced_cex :
    clientUpdateFails.updateIncident "api" 42 7 1 (upMessage "api") = some "update failed"
    ∧ SubmitAlert cfgSquash clientUpdateFails (groupOf "resolved" [apiAlert]) =
        (none,
         [CachetCall.listComponents, CachetCall.searchIncidents 42,
          CachetCall.updateIncident "api" 42 7 1 (upMessage "api"),
          CachetCall.readIncident 7]) :=
  ⟨rfl, rfl⟩

/-- C2 (amended): a failure of listing components, searching incidents, or
creating an incident aborts the remaining batch and surfaces that first error;
update-incident results are discarded without any effect on the outcome, and a
read-incident failure only suppresses the enrichment update, surfacing
nothing. -/
theorem backend_error_policy (config : PrometheusCachetConfig)
    (cachet : CachetClient) (g : PrometheusAlert) :
    (∀ e, (cachet.listComponents).2 = some e →
      SubmitAlert config cachet g = (some e, [CachetCall.listComponents]))
    ∧ (∀ (st cs : Int) (name : String) (cid : Int) e,
        config.squashIncident = true →
        (cachet.searchIncidents cid).2 = some e →
        (processComponent config cachet st cs name cid).1 = some e)
    ∧ (∀ (st cs : Int) (name : String) (cid : Int),
        config.squashIncident = false →
        (processComponent config cachet st cs name cid).1 =
          cachet.createIncident name cid st cs)
    ∧ (∀ (st cs : Int) (name : String) (cid : Int),
        config.squashIncident = true → st ≠ 1 →
        cachet.searchIncidents cid = ([], none) →
        (processComponent config cachet st cs name cid).1 =
          cachet.createIncident name cid st cs)
    ∧ (∀ (st cs : Int) (name : String) (cid : Int) (i0 : Incident) (t : List Incident),
        config.squashIncident = true → st ≠ 1 →
        cachet.searchIncidents cid = (i0 :: t, none) → i0.status = 4 →
        (processComponent config cachet st cs name cid).1 =
          cachet.createIncident name cid st cs)
    ∧ (∀ f, SubmitAlert config { cachet with updateIncident := f } g =
        SubmitAlert config cachet g)
    ∧ (∀ (cs : Int) (name : String) (cid : Int) (i0 : Incident) (t : List Incident) inc e,
        config.squashIncident = true →
        cachet.searchIncidents cid = (i0 :: t, none) →
        cachet.readIncident i0.id = (inc, some e) →
        (processComponent config cachet 1 cs name cid).1 = none)
    ∧ (∀ (st cs : Int) (list : List (String × Int)) (a : PrometheusAlertDetail)
         (rest : List PrometheusAlertDetail) (fired : List Int) (cid : Int) e,
        list.lookup (lookupString a.labels config.labelName) = some cid →
        cid ∉ fired →
        (processComponent config cachet st cs
          (lookupString a.labels config.labelName) cid).1 = some e →
        processAlerts config cachet st cs list (a :: rest) fired =
          (some e,
           (processComponent config cachet st cs
             (lookupString a.labels config.labelName) cid).2)) := by
  refine ⟨?_, ?_, ?_, ?_, ?_, ?_, ?_, ?_⟩
  · intro e h
    rcases hl : cachet.listComponents with ⟨l, le⟩
    rw [hl] at h
    simp at h
    subst h
    simp [SubmitAlert, hl]
  · intro st cs name cid e hsq hse
    rcases hs : cachet.searchIncidents cid with ⟨incs, serr⟩
    rw [hs] at hse
    simp at hse
    subst hse
    by_cases hst : st = 1
    · subst hst
      simp [processComponent, hsq, hs]
    · simp [processComponent, hsq, hs, hst]
  · intro st cs name cid h
    simp [processComponent, h]
  · intro st cs name cid hsq hst hs
    simp [processComponent, hsq, hst, hs]
  · intro st cs name cid i0 t hsq hst hs h4
    simp [processComponent, hsq, hst, hs, h4]
  · intro f
    exact SubmitAlert_client_invariant config { cachet with updateIncident := f } cachet
      rfl rfl rfl rfl g
  · intro cs name cid i0 t inc e hsq hs hri
    simp [processComponent, hsq, hs, hri]
  · intro st cs list a rest fired cid e hl hf hpc
    rw [processAlerts]
    simp only [hl]
    rw [if_neg hf]
    simp [hpc]

/-- C2 witness: a failing directory fetch aborts the invocation and surfaces
the backend's error. -/
theorem backend_error_policy_witness :
    SubmitAlert cfgSquash clientListFails (groupOf "firing" [apiAlert]) =
      (some "list failed", [CachetCall.listComponents]) :=
  (backend_error_policy cfgSquash clientListFails (groupOf "firing" [apiAlert])).1
    "list failed" rfl

/-- Search-call counts add over trace concatenation. -/
lemma countSearchCalls_append (l1 l2 : List CachetCall) (cid : Int) :
    countSearchCalls (l1 ++ l2) cid = countSearchCalls l1 cid + countSearchCalls l2 cid := by
  induction l1 with
  | nil => simp [countSearchCalls]
  | cons hd tl ih => cases hd <;> simp [countSearchCalls, ih, Nat.add_assoc]

/-- Create-call counts add over trace concatenation. -/
lemma countCreateCalls_append (l1 l2 : List CachetCall) (cid : Int) :
    countCreateCalls (l1 ++ l2) cid = countCreateCalls l1 cid + countCreateCalls l2 cid := by
  induction l1 with
  | nil => simp [countCreateCalls]
  | cons hd tl ih => cases hd <;> simp [countCreateCalls, ih, Nat.add_assoc]

/-- One per-component step performs at most one incident search and at most one
create, both only for its own component. -/
lemma processComponent_counts (config : PrometheusCachetConfig) (cachet : CachetClient)
    (st cs : Int) (name : String) (cid' cid : Int) :
    countSearchCalls (processComponent config cachet st cs name cid').2 cid ≤
        (if cid' = cid then 1 else 0)
    ∧ countCreateCalls (processComponent config cachet st cs name cid').2 cid ≤
        (if cid' = cid then 1 else 0) := by
  refine ⟨?_, ?_⟩
  all_goals
    unfold processComponent
    split
    · split
      · rcases hs : cachet.searchIncidents cid' with ⟨incs, serr⟩
        rcases serr with _ | e
        · rcases incs with _ | ⟨i0, t⟩
          · simp [countSearchCalls, countCreateCalls]
          · by_cases h4 : i0.status = 4 <;> simp [h4, countSearchCalls, countCreateCalls]
        · simp [countSearchCalls, countCreateCalls]
      · rcases hs : cachet.searchIncidents cid' with ⟨incs, serr⟩
        rcases serr with _ | e
        · rcases incs with _ | ⟨i0, t⟩
          · simp [countSearchCalls, countCreateCalls]
          · rcases hr : (cachet.readIncident i0.id).2 with _ | e2
            · rcases hc : parseTimestamp (cachet.readIncident i0.id).1.createdAt with _ | tc
              · simp [hr, hc, countSearchCalls, countCreateCalls]
              · rcases hu : parseTimestamp (cachet.readIncident i0.id).1.updatedAt with _ | tu
                · simp [hr, hc, hu, countSearchCalls, countCreateCalls]
                · simp [hr, hc, hu, countSearchCalls, countCreateCalls]
            · simp [hr, countSearchCalls, countCreateCalls]
        · simp [countSearchCalls, countCreateCalls]
    · simp [countSearchCalls, countCreateCalls]

/-- Over the whole loop, a component already in the dedup set is never searched
or created again, and any component is searched and created at most once. -/
lemma processAlerts_counts (config : PrometheusCachetConfig) (cachet : CachetClient)
    (st cs : Int) (list : List (String × Int)) (cid : Int) :
    ∀ (alerts : List PrometheusAlertDetail) (fired : List Int),
      countSearchCalls (processAlerts config cachet st cs list alerts fired).2 cid ≤
          (if cid ∈ fired then 0 else 1)
      ∧ countCreateCalls (processAlerts config cachet st cs list alerts fired).2 cid ≤
          (if cid ∈ fired then 0 else 1)
  | [], fired => by
    refine ⟨?_, ?_⟩ <;> simp [processAlerts, countSearchCalls, countCreateCalls]
  | a :: rest, fired => by
    rw [processAlerts]
    rcases hl : list.lookup (lookupString a.labels config.labelName) with _ | cid'
    · simp only [hl]
      exact processAlerts_counts config cachet st cs list cid rest fired
    · simp only [hl]
      by_cases hf : cid' ∈ fired
      · rw [if_pos hf]
        exact processAlerts_counts config cachet st cs list cid rest fired
      · rw [if_neg hf]
        rcases hr : (processComponent config cachet st cs
            (lookupString a.labels config.labelName) cid').1 with _ | e
        · simp only [hr]
          have h1 := processComponent_counts config cachet st cs
              (lookupString a.labels config.labelName) cid' cid
          have h2 := processAlerts_counts config cachet st cs list cid rest (cid' :: fired)
          refine ⟨?_, ?_⟩
          · rw [countSearchCalls_append]
            by_cases hcc : cid' = cid
            · subst hcc
              have ha := h1.1
              rw [if_pos rfl] at ha
              have hb := h2.1
              rw [if_pos (List.mem_cons_self cid' fired)] at hb
              rw [if_neg hf]
              omega
            · have ha := h1.1
              rw [if_neg hcc] at ha
              have hb := h2.1
              by_cases hm : cid ∈ fired
              · rw [if_pos (List.mem_cons_of_mem _ hm)] at hb
                rw [if_pos hm]
                omega
              · rw [if_neg (fun hmem =>
                    (List.mem_cons.mp hmem).elim (fun hh => hcc hh.symm) hm)] at hb
                rw [if_neg hm]
                omega
          · rw [countCreateCalls_append]
            by_cases hcc : cid' = cid
            · subst hcc
              have ha := h1.2
              rw [if_pos rfl] at ha
              have hb := h2.2
              rw [if_pos (List.mem_cons_self cid' fired)] at hb
              rw [if_neg hf]
              omega
            · have ha := h1.2
              rw [if_neg hcc] at ha
              have hb := h2.2
              by_cases hm : cid ∈ fired
              · rw [if_pos (List.mem_cons_of_mem _ hm)] at hb
                rw [if_pos hm]
                omega
              · rw [if_neg (fun hmem =>
                    (List.mem_cons.mp hmem).elim (fun hh => hcc hh.symm) hm)] at hb
                rw [if_neg hm]
                omega
        · simp only [hr]
          have h1 := processComponent_counts config cachet st cs
              (lookupString a.labels config.labelName) cid' cid
          refine ⟨?_, ?_⟩
          · by_cases hcc : cid' = cid
            · subst hcc
              have ha := h1.1
              rw [if_pos rfl] at ha
              rw [if_neg hf]
              omega
            · have ha := h1.1
              rw [if_neg hcc] at ha
              exact le_trans ha (Nat.zero_le _)
          · by_cases hcc : cid' = cid
            · subst hcc
              have ha := h1.2
              rw [if_pos rfl] at ha
              rw [if_neg hf]
              omega
            · have ha := h1.2
              rw [if_neg hcc] at ha
              exact le_trans ha (Nat.zero_le _)

/-- C6: each distinct component identifier triggers backend processing at most
once per invocation — at most one incident search and at most one create call —
and a later alert resolving to an already-processed component is skipped. -/
theorem component_processed_at_most_once (config : PrometheusCachetConfig)
    (cachet : CachetClient) (g : PrometheusAlert) (cid : Int) :
    (countSearchCalls (SubmitAlert config cachet g).2 cid ≤ 1
     ∧ countCreateCalls (SubmitAlert config cachet g).2 cid ≤ 1)
    ∧ (∀ (st cs : Int) (list : List (String × Int)) (a : PrometheusAlertDetail)
         (rest : List PrometheusAlertDetail) (fired : List Int),
        list.lookup (lookupString a.labels config.labelName) = some cid →
        cid ∈ fired →
        processAlerts config cachet st cs list (a :: rest) fired =
          processAlerts config cachet st cs list rest fired) := by
  constructor
  · rw [SubmitAlert]
    rcases hl : cachet.listComponents with ⟨list, le⟩
    rcases le with _ | e
    · simp only [hl]
      have h := processAlerts_counts config cachet (deriveStatus g.status)
        (deriveStatus g.status) list cid g.alerts []
      simp only [List.not_mem_nil, if_false] at h
      refine ⟨?_, ?_⟩
      · simpa [countSearchCalls] using h.1
      · simpa [countCreateCalls] using h.2
    · simp [hl, countSearchCalls, countCreateCalls]
  · intro st cs list a rest fired hl hf
    rw [processAlerts]
    simp only [hl]
    rw [if_pos hf]

/-- C6 witness: a batch repeating the same alert issues a single create, and the
repeated alert is skipped once the component is in the dedup set. -/
theorem component_processed_at_most_once_witness :
    (countSearchCalls
        (SubmitAlert cfgPlain baseClient (groupOf "firing" [apiAlert, apiAlert])).2 42 ≤ 1
     ∧ countCreateCalls
        (SubmitAlert cfgPlain baseClient (groupOf "firing" [apiAlert, apiAlert])).2 42 ≤ 1)
    ∧ processAlerts cfgPlain baseClient 4 4 [("api", 42)] [apiAlert] [42] =
        processAlerts cfgPlain baseClient 4 4 [("api", 42)] [] [42] :=
  ⟨(component_processed_at_most_once cfgPlain baseClient
      (groupOf "firing" [apiAlert, apiAlert]) 42).1,
   (component_processed_at_most_once cfgPlain baseClient
      (groupOf "firing" [apiAlert, apiAlert]) 42).2
     4 4 [("api", 42)] apiAlert [] [42] rfl (by decide)⟩

end PrometheusCachet
